import Mathlib

/-! Verification of the numerical core of the Black-Scholes-Merton notebook
(src/python-black-scholes-merton.ipynb).  The embedding covers the per-draw
price simulator `bsm` (code cells 2 and 4), its vectorized application over a
list of standard-normal draws (`bsmVec`), the Monte Carlo present-value
computation of code cell 12 (`presentOptionValue`), and the closed-form call
pricer `call` of code cell 14.  Machine floats are modelled as real numbers.
The standard normal CDF `norm.cdf` comes from scipy, external to the
repository, so `call` takes it as an explicit function parameter `cdf`.
Python runtime errors the code can actually raise (ZeroDivisionError from a
division by zero, ValueError from `math.log` on a non-positive argument or
`math.sqrt` on a negative one) are modelled by `Option.none`; the notebook
performs no input validation of its own. -/

open Real

/-- Function `bsm` from code cell 4 (the scalar version in code cell 2 has
the identical exponent): `s_0*np.exp((r-0.5*(sigma**2)*t+z*sigma*np.sqrt(t)))`.
Note the exponent the code actually computes is
`r - 0.5*sigma^2*t + z*sigma*sqrt(t)`: the rate `r` is NOT multiplied by `t`,
unlike the formula `(r - sigma^2/2)*T + sigma*sqrt(T)*Z` documented in the
notebook's own markdown (cell 1). -/
noncomputable def bsm (s_0 r sigma t z : ℝ) : ℝ :=
  s_0 * Real.exp (r - 0.5 * sigma ^ 2 * t + z * sigma * Real.sqrt t)

/-- Vectorized use of `bsm` over a numpy array of draws, as in code cell 4:
numpy broadcasts the scalar expression elementwise over `z`. -/
noncomputable def bsmVec (s_0 r sigma t : ℝ) (z : List ℝ) : List ℝ :=
  z.map fun zi => bsm s_0 r sigma t zi

/-- Monte Carlo present-value computation of code cell 12, as a function of
the simulated terminal prices, the strike, the rate and the expiry:
`optionvalueAtExpiry = np.maximum(stockpricesAtExpiry-strikeprice,0)`,
`averageForwardOptionValue = sum(optionvalueAtExpiry)/n`,
`presentOptionValue = averageForwardOptionValue*math.exp(-r*t)` where `n` is
the number of samples.  On an empty sample list the Python division `.../0`
raises ZeroDivisionError, modelled as `none`. -/
noncomputable def presentOptionValue (stockpricesAtExpiry : List ℝ)
    (strikeprice r t : ℝ) : Option ℝ :=
  if stockpricesAtExpiry = [] then none
  else
    let optionvalueAtExpiry := stockpricesAtExpiry.map fun s => max (s - strikeprice) 0
    let averageForwardOptionValue := optionvalueAtExpiry.sum / stockpricesAtExpiry.length
    some (averageForwardOptionValue * Real.exp (-r * t))

/-- Function `call` from code cell 14:
`d1=1/(sigma*math.sqrt(t))*(math.log(float(s/k))+(r+0.5*(sigma**2))*t)`,
`d2=d1-sigma*math.sqrt(t)`,
`return norm.cdf(d1)*s-norm.cdf(d2)*k*math.exp((-1)*r*t)`.
The guards model, in evaluation order, the Python runtime errors:
`math.sqrt` on `t < 0` (ValueError), `1/(sigma*sqrt(t))` when the divisor is
zero (ZeroDivisionError), `s/k` when `k = 0` (ZeroDivisionError), and
`math.log` on a non-positive argument (ValueError).  `cdf` stands for the
external `norm.cdf` collaborator. -/
noncomputable def call (cdf : ℝ → ℝ) (s r sigma t k : ℝ) : Option ℝ :=
  if t < 0 then none
  else if sigma * Real.sqrt t = 0 then none
  else if k = 0 then none
  else if s / k ≤ 0 then none
  else
    let d1 := 1 / (sigma * Real.sqrt t) * (Real.log (s / k) + (r + 0.5 * sigma ^ 2) * t)
    let d2 := d1 - sigma * Real.sqrt t
    some (cdf d1 * s - cdf d2 * k * Real.exp (-1 * r * t))

/-- Claim C1: the simulator is claimed to return entries
`S0 * exp((r - 0.5*sigma^2)*T + sigma*sqrt(T)*z_i)`.  Evaluating the code at
S0 = 100, r = 0.03, sigma = 0.4, T = 0.25, draws = [0.0] shows it instead
returns `[100 * exp 0.01]` (exponent `r - 0.5*sigma^2*T`, the code's missing
parenthesis leaves `r` unmultiplied by `T`), which differs from the claimed
`[100 * exp ((0.03 - 0.5*0.4^2)*0.25)] = [100 * exp (-0.0125)]`. -/
theorem c1_bsm_formula_bug :
    bsmVec 100 0.03 0.4 0.25 [0] = [100 * Real.exp 0.01] ∧
    (100 : ℝ) * Real.exp 0.01 ≠ 100 * Real.exp ((0.03 - 0.5 * 0.4 ^ 2) * 0.25) := by
  refine ⟨?_, ?_⟩
  · simp only [bsmVec, bsm, List.map]
    norm_num
  · intro h
    have h2 : Real.exp (0.01 : ℝ) = Real.exp ((0.03 - 0.5 * 0.4 ^ 2) * 0.25) :=
      mul_left_cancel₀ (by norm_num : (100 : ℝ) ≠ 0) h
    rw [Real.exp_eq_exp] at h2
    norm_num at h2

/-- Claim C2: the spec's scenario demands that the simulator at S0 = 100,
r = 0.03, sigma = 0.4, T = 0.25 with draws [0.0] return
`[100 * exp (-0.0125)]` (about 98.758).  The code actually returns
`[100 * exp 0.01]` (about 101.005), and the two values are distinct. -/
theorem c2_single_draw_scenario_bug :
    bsmVec 100 0.03 0.4 0.25 [0] = [bsm 100 0.03 0.4 0.25 0] ∧
    bsm 100 0.03 0.4 0.25 0 = 100 * Real.exp 0.01 ∧
    bsm 100 0.03 0.4 0.25 0 ≠ 100 * Real.exp (-0.0125 : ℝ) := by
  have hval : bsm 100 0.03 0.4 0.25 0 = 100 * Real.exp 0.01 := by
    simp only [bsm]
    norm_num
  refine ⟨by simp [bsmVec], hval, ?_⟩
  rw [hval]
  intro h
  have h2 : Real.exp (0.01 : ℝ) = Real.exp (-0.0125 : ℝ) :=
    mul_left_cancel₀ (by norm_num : (100 : ℝ) ≠ 0) h
  rw [Real.exp_eq_exp] at h2
  norm_num at h2

/-- Claim C3, counterexample: the claim says every core operation called with
sigma = 0 fails with an InvalidParameter error before producing any output.
The simulator called with sigma = 0 produces an output: the one-element list
`[100 * exp 0.03]`.  No validation exists in the code. -/
theorem c3_boundary_rejection_counterexample :
    bsmVec 100 0.03 0 0.25 [0] = [100 * Real.exp 0.03] := by
  simp only [bsmVec, bsm, List.map]
  norm_num

/-- Claim C3, amended: no operation validates its parameters.  The simulator
returns a numeric sequence (every entry `S0 * exp r`) at sigma = 0 for any
spot, rate, expiry and draw list, rather than failing; the Monte Carlo
valuator fails only on an empty sample sequence (a Python ZeroDivisionError,
modelled as `none`); the closed-form valuator at sigma = 0 fails with a
language-level ZeroDivisionError (modelled as `none`), not a dedicated
InvalidParameter validation. -/
theorem c3_no_validation_amended :
    (∀ s_0 r t zs, bsmVec s_0 r 0 t zs = zs.map fun _ => s_0 * Real.exp r) ∧
    (∀ k r t, presentOptionValue [] k r t = none) ∧
    (∀ cdf s r t k, 0 ≤ t → call cdf s r 0 t k = none) := by
  refine ⟨?_, ?_, ?_⟩
  · intro s_0 r t zs
    simp only [bsmVec, bsm]
    apply List.map_congr_left
    intro z _
    norm_num
  · intro k r t
    simp [presentOptionValue]
  · intro cdf s r t k ht
    simp only [call]
    rw [if_neg (not_lt.mpr ht), zero_mul, if_pos rfl]

/-- Witness for the amended claim C3 at concrete inputs. -/
theorem c3_no_validation_amended_witness :
    bsmVec 100 0.03 0 0.25 [1] = [1].map (fun _ => (100 : ℝ) * Real.exp 0.03) ∧
    presentOptionValue [] 105 0.03 0.25 = none ∧
    call (fun x => x) 100 0.03 0 0.25 105 = none :=
  ⟨c3_no_validation_amended.1 100 0.03 0.25 [1],
   c3_no_validation_amended.2.1 105 0.03 0.25,
   c3_no_validation_amended.2.2 (fun x => x) 100 0.03 0.25 105 (by norm_num)⟩

/-- Helper: under the positivity preconditions every guard of `call` is
passed, and the result is the closed-form expression with `d1` written as a
division.  Shared by the claims about the closed-form valuator. -/
theorem call_eq_of_pos (cdf : ℝ → ℝ) (s r sigma t k : ℝ)
    (hs : 0 < s) (hsig : 0 < sigma) (ht : 0 < t) (hk : 0 < k) :
    call cdf s r sigma t k =
      some (cdf ((Real.log (s / k) + (r + 0.5 * sigma ^ 2) * t) / (sigma * Real.sqrt t)) * s -
        cdf ((Real.log (s / k) + (r + 0.5 * sigma ^ 2) * t) / (sigma * Real.sqrt t) -
          sigma * Real.sqrt t) * k * Real.exp (-(r * t))) := by
  have hst : (0 : ℝ) < sigma * Real.sqrt t := mul_pos hsig (Real.sqrt_pos.mpr ht)
  simp only [call]
  rw [if_neg (not_lt.mpr ht.le), if_neg hst.ne', if_neg hk.ne',
    if_neg (not_le.mpr (div_pos hs hk))]
  simp only [one_div_mul_eq_div]
  norm_num

/-- Claim C4: for every non-empty sample sequence, strike, rate and expiry,
the Monte Carlo valuator returns exactly the per-sample payoff
`max (S_T - strike) 0`, averaged arithmetically, then discounted by
`exp (-r*t)`. -/
theorem c4_monte_carlo_estimator (samples : List ℝ) (strikeprice r t : ℝ)
    (h : samples ≠ []) :
    presentOptionValue samples strikeprice r t =
      some ((samples.map fun s => max (s - strikeprice) 0).sum / samples.length *
        Real.exp (-r * t)) := by
  simp [presentOptionValue, h]

/-- Witness for claim C4 at a concrete two-sample input. -/
theorem c4_monte_carlo_estimator_witness :
    presentOptionValue [100, 110] 105 0.03 0.25 =
      some ((([100, 110].map fun s => max (s - 105) 0).sum / ([100, 110] : List ℝ).length) *
        Real.exp (-0.03 * 0.25)) :=
  c4_monte_carlo_estimator [100, 110] 105 0.03 0.25 (by simp)

/-- Claim C5: for positive spot, volatility, expiry and strike the
closed-form valuator returns `cdf d1 * S0 - cdf d2 * K * exp (-r*T)` with
`d1 = (ln (S0/K) + (r + 0.5*sigma^2)*T) / (sigma*sqrt T)` and
`d2 = d1 - sigma*sqrt T`, where `cdf` is the externally supplied standard
normal CDF collaborator (scipy's `norm.cdf`). -/
theorem c5_closed_form_formula (cdf : ℝ → ℝ) (s r sigma t k : ℝ)
    (hs : 0 < s) (hsig : 0 < sigma) (ht : 0 < t) (hk : 0 < k) :
    call cdf s r sigma t k =
      some (cdf ((Real.log (s / k) + (r + 0.5 * sigma ^ 2) * t) / (sigma * Real.sqrt t)) * s -
        cdf ((Real.log (s / k) + (r + 0.5 * sigma ^ 2) * t) / (sigma * Real.sqrt t) -
          sigma * Real.sqrt t) * k * Real.exp (-(r * t))) :=
  call_eq_of_pos cdf s r sigma t k hs hsig ht hk

/-- Witness for claim C5 at concrete inputs with the identity as CDF
collaborator. -/
theorem c5_closed_form_formula_witness :
    call (fun x => x) 100 0.03 0.4 0.25 105 =
      some ((fun x => x) ((Real.log ((100 : ℝ) / 105) + (0.03 + 0.5 * 0.4 ^ 2) * 0.25) /
          (0.4 * Real.sqrt 0.25)) * 100 -
        (fun x => x) ((Real.log ((100 : ℝ) / 105) + (0.03 + 0.5 * 0.4 ^ 2) * 0.25) /
          (0.4 * Real.sqrt 0.25) - 0.4 * Real.sqrt 0.25) * 105 * Real.exp (-(0.03 * 0.25))) :=
  c5_closed_form_formula (fun x => x) 100 0.03 0.4 0.25 105
    (by norm_num) (by norm_num) (by norm_num) (by norm_num)

/-- Claim C7: the closed-form valuator is deterministic.  Its output is a
function of its five numeric inputs and the CDF collaborator alone: two
calls with identical inputs yield identical outputs, with no hidden state in
the embedding. -/
theorem c7_closed_form_deterministic (cdf : ℝ → ℝ)
    (s1 r1 sigma1 t1 k1 s2 r2 sigma2 t2 k2 : ℝ)
    (hs : s1 = s2) (hr : r1 = r2) (hsig : sigma1 = sigma2) (ht : t1 = t2) (hk : k1 = k2) :
    call cdf s1 r1 sigma1 t1 k1 = call cdf s2 r2 sigma2 t2 k2 := by
  rw [hs, hr, hsig, ht, hk]

/-- Witness for claim C7 at concrete inputs. -/
theorem c7_closed_form_deterministic_witness :
    call (fun x => x) 100 0.03 0.4 0.25 105 = call (fun x => x) 100 0.03 0.4 0.25 105 :=
  c7_closed_form_deterministic (fun x => x) 100 0.03 0.4 0.25 105 100 0.03 0.4 0.25 105
    rfl rfl rfl rfl rfl

/-- Claim C8: for every non-empty sample sequence the Monte Carlo valuator
succeeds and its result is non-negative: every payoff is clipped at zero,
the mean of non-negative values is non-negative, and the discount factor is
positive. -/
theorem c8_monte_carlo_nonnegative (samples : List ℝ) (strikeprice r t : ℝ)
    (h : samples ≠ []) :
    ∃ v, presentOptionValue samples strikeprice r t = some v ∧ 0 ≤ v := by
  refine ⟨(samples.map fun s => max (s - strikeprice) 0).sum / samples.length *
    Real.exp (-r * t), by simp [presentOptionValue, h], ?_⟩
  have hsum : (0 : ℝ) ≤ (samples.map fun s => max (s - strikeprice) 0).sum := by
    apply List.sum_nonneg
    intro x hx
    rw [List.mem_map] at hx
    obtain ⟨a, _, rfl⟩ := hx
    exact le_max_right _ _
  exact mul_nonneg (div_nonneg hsum (Nat.cast_nonneg _)) (Real.exp_pos _).le

/-- Witness for claim C8 at a concrete two-sample input. -/
theorem c8_monte_carlo_nonnegative_witness :
    ∃ v, presentOptionValue [90, 120] 105 0.03 0.25 = some v ∧ 0 ≤ v :=
  c8_monte_carlo_nonnegative [90, 120] 105 0.03 0.25 (by simp)

/-- Claim C9: under the preconditions S0 > 0, K > 0, sigma > 0, T > 0 the
closed-form valuator reaches no error branch — the divisor `sigma * sqrt T`
is nonzero and the logarithm argument `S0/K` is positive — so it returns a
value. -/
theorem c9_closed_form_no_error (cdf : ℝ → ℝ) (s r sigma t k : ℝ)
    (hs : 0 < s) (hsig : 0 < sigma) (ht : 0 < t) (hk : 0 < k) :
    (call cdf s r sigma t k).isSome = true := by
  rw [call_eq_of_pos cdf s r sigma t k hs hsig ht hk]
  rfl

/-- Witness for claim C9 at concrete inputs. -/
theorem c9_closed_form_no_error_witness :
    (call (fun x => x) 100 0.03 0.4 0.25 105).isSome = true :=
  c9_closed_form_no_error (fun x => x) 100 0.03 0.4 0.25 105
    (by norm_num) (by norm_num) (by norm_num) (by norm_num)

/-- Claim C10: for fixed positive spot, volatility and expiry the simulated
terminal price is monotone in the standard-normal draw: z1 ≤ z2 implies
`bsm S0 r sigma T z1 ≤ bsm S0 r sigma T z2`.  This holds for the code's
exponent as written, since the draw's coefficient `sigma * sqrt T` is
positive. -/
theorem c10_simulator_monotone_in_draw (s_0 r sigma t z1 z2 : ℝ)
    (hs : 0 < s_0) (hsig : 0 < sigma) (ht : 0 < t) (hz : z1 ≤ z2) :
    bsm s_0 r sigma t z1 ≤ bsm s_0 r sigma t z2 := by
  have hsq : (0 : ℝ) < Real.sqrt t := Real.sqrt_pos.mpr ht
  apply mul_le_mul_of_nonneg_left _ hs.le
  apply Real.exp_le_exp.mpr
  nlinarith [mul_nonneg (mul_nonneg (sub_nonneg.mpr hz) hsig.le) hsq.le]

/-- Witness for claim C10 at concrete inputs. -/
theorem c10_simulator_monotone_in_draw_witness :
    bsm 100 0.03 0.4 0.25 0 ≤ bsm 100 0.03 0.4 0.25 1 :=
  c10_simulator_monotone_in_draw 100 0.03 0.4 0.25 0 1
    (by norm_num) (by norm_num) (by norm_num) (by norm_num)

/-- Helper: the square root of 0.25 is 0.5. -/
theorem sqrt_quarter : Real.sqrt (0.25 : ℝ) = 0.5 := by
  rw [show (0.25 : ℝ) = 0.5 ^ 2 by norm_num]
  exact Real.sqrt_sq (by norm_num)

/-- Helper: two-sided Taylor bound on the discount factor exp (-0.0075),
obtained from the degree-3 remainder estimate for the exponential. -/
theorem exp_discount_bounds :
    |Real.exp (-0.0075 : ℝ) - 0.992528125| ≤ 1e-7 := by
  have hb := Real.exp_bound (x := (-0.0075 : ℝ)) (by rw [abs_of_nonpos] <;> norm_num)
    (n := 3) (by norm_num)
  have hsum : ∑ m ∈ Finset.range 3, (-0.0075 : ℝ) ^ m / m.factorial = 0.992528125 := by
    rw [Finset.sum_range_succ, Finset.sum_range_succ, Finset.sum_range_succ,
      Finset.sum_range_zero]
    norm_num [Nat.factorial]
  rw [hsum] at hb
  have habs : |(-0.0075 : ℝ)| = 0.0075 := by rw [abs_of_nonpos] <;> norm_num
  rw [habs] at hb
  have hrhs : (0.0075 : ℝ) ^ 3 * ((3 : ℕ).succ / ((3 : ℕ).factorial * 3)) ≤ 1e-7 := by
    norm_num [Nat.factorial]
  exact hb.trans hrhs

/-- Claim C6: with the standard normal CDF values at the two abscissae
d1 = (ln(100/105) + (0.03 + 0.5*0.4^2)*0.25)/(0.4*sqrt 0.25) = -0.1064508...
and d2 = d1 - 0.2 = -0.3064508... pinned to within 1e-6 of their true values
0.4576123364... and 0.3796307094... (the contract of the external `norm.cdf`
collaborator), the closed-form valuator at S0 = 100, r = 0.03, sigma = 0.4,
T = 0.25, K = 105 returns a value within 1e-3 of 6.1979 — matching the
notebook's own printed output 6.19785003662. -/
theorem c6_closed_form_known_value (cdf : ℝ → ℝ)
    (h1 : |cdf ((Real.log ((100 : ℝ) / 105) + (0.03 + 0.5 * 0.4 ^ 2) * 0.25) /
        (0.4 * Real.sqrt 0.25)) - 0.4576123| ≤ 1e-6)
    (h2 : |cdf ((Real.log ((100 : ℝ) / 105) + (0.03 + 0.5 * 0.4 ^ 2) * 0.25) /
        (0.4 * Real.sqrt 0.25) - 0.4 * Real.sqrt 0.25) - 0.3796307| ≤ 1e-6) :
    ∃ v, call cdf 100 0.03 0.4 0.25 105 = some v ∧ |v - 6.1979| < 1e-3 := by
  refine ⟨_, call_eq_of_pos cdf 100 0.03 0.4 0.25 105
    (by norm_num) (by norm_num) (by norm_num) (by norm_num), ?_⟩
  rw [show (-(0.03 * 0.25) : ℝ) = (-0.0075 : ℝ) by norm_num]
  obtain ⟨ha1, ha2⟩ := abs_le.mp h1
  obtain ⟨hb1, hb2⟩ := abs_le.mp h2
  obtain ⟨he1, he2⟩ := abs_le.mp exp_discount_bounds
  set a := cdf ((Real.log ((100 : ℝ) / 105) + (0.03 + 0.5 * 0.4 ^ 2) * 0.25) /
    (0.4 * Real.sqrt 0.25)) with hA
  set b := cdf ((Real.log ((100 : ℝ) / 105) + (0.03 + 0.5 * 0.4 ^ 2) * 0.25) /
    (0.4 * Real.sqrt 0.25) - 0.4 * Real.sqrt 0.25) with hB
  set E := Real.exp (-0.0075 : ℝ) with hE
  have hbEu : b * E ≤ 0.3796317 * 0.992528225 :=
    mul_le_mul (by linarith) (by linarith) (by linarith) (by norm_num)
  have hbEl : (0.3796297 : ℝ) * 0.992528025 ≤ b * E :=
    mul_le_mul (by linarith) (by linarith) (by norm_num) (by linarith)
  rw [abs_lt]
  constructor
  · linarith
  · linarith

/-- Step function standing in for the external CDF collaborator in the
witness of the known-value claim: it takes exactly the pinned values at the
two abscissae the valuator evaluates. -/
noncomputable def cdfStepWitness : ℝ → ℝ := fun x =>
  if x ≤ (Real.log ((100 : ℝ) / 105) + (0.03 + 0.5 * 0.4 ^ 2) * 0.25) /
      (0.4 * Real.sqrt 0.25) - 0.4 * Real.sqrt 0.25
  then 0.3796307 else 0.4576123

/-- Witness for claim C6, instantiating the CDF collaborator with a concrete
step function taking the pinned values. -/
theorem c6_closed_form_known_value_witness :
    ∃ v, call cdfStepWitness 100 0.03 0.4 0.25 105 = some v ∧ |v - 6.1979| < 1e-3 := by
  have hne : ¬ ((Real.log ((100 : ℝ) / 105) + (0.03 + 0.5 * 0.4 ^ 2) * 0.25) /
      (0.4 * Real.sqrt 0.25) ≤
      (Real.log ((100 : ℝ) / 105) + (0.03 + 0.5 * 0.4 ^ 2) * 0.25) /
      (0.4 * Real.sqrt 0.25) - 0.4 * Real.sqrt 0.25) := by
    rw [sqrt_quarter]
    intro hcon
    linarith
  apply c6_closed_form_known_value cdfStepWitness
  · simp only [cdfStepWitness]
    rw [if_neg hne]
    norm_num
  · simp only [cdfStepWitness]
    rw [if_pos le_rfl]
    norm_num
